import Mathlib

/-!
Shallow embedding of the `asyncbotocore` slice (client.py, config.py):
connector-option validation and normalization (`AsyncConfig`), config
merging, client-argument assembly (parameter-validation precedence and
user-agent computation), the per-call execution path (`_make_api_call`)
with its hook-emission trace, and `get_paginator`.
-/

namespace AsyncBotocore

/-- Model of the Python values that flow through the connector-options and
scoped-config dictionaries.  Python's `bool` is a subclass of `int`, which the
`isInst*` functions below reflect. -/
inductive PyVal where
  | bool (b : Bool)
  | int (n : Int)
  | float (q : Rat)
  | str (s : String)
  | sslContext
  | none
deriving DecidableEq, Repr

/-- Association-list model of a Python `dict` (insertion-ordered, keys unique
in any dict actually built by Python). -/
abbrev PyDict := List (String × PyVal)

/-- Python `d[k]` / `d.get(k)`: the value at the first occurrence of `k`. -/
def lookupKey {α : Type} : List (String × α) → String → Option α
  | [], _ => Option.none
  | (k', v) :: rest, k => if k' = k then some v else lookupKey rest k

/-- Python `d[k] = v`: replace in place when the key is present, else append
(Python 3.7+ dicts preserve insertion order). -/
def insertKey {α : Type} : List (String × α) → String → α → List (String × α)
  | [], k, v => [(k, v)]
  | (k', v') :: rest, k, v =>
    if k' = k then (k', v) :: rest else (k', v') :: insertKey rest k v

/-- Python `d.update(other)`: store each of `other`'s entries into `d` in
order. -/
def updateKeys {α : Type} (d other : List (String × α)) : List (String × α) :=
  other.foldl (fun acc kv => insertKey acc kv.1 kv.2) d

/-- Python `isinstance(v, bool)`. -/
def isInstBool : PyVal → Bool
  | .bool _ => true
  | _ => false

/-- Python `isinstance(v, int)`: true also for `bool`, a subclass of `int`. -/
def isInstInt : PyVal → Bool
  | .int _ => true
  | .bool _ => true
  | _ => false

/-- Python `isinstance(v, float)` (neither `int` nor `bool` is a `float`). -/
def isInstFloat : PyVal → Bool
  | .float _ => true
  | _ => false

/-- Python `isinstance(v, ssl.SSLContext)`. -/
def isInstSSLContext : PyVal → Bool
  | .sslContext => true
  | _ => false

/-- Python `isinstance(v, str)`. -/
def isInstStr : PyVal → Bool
  | .str _ => true
  | _ => false

/-- One iteration of the loop body of `AsyncConfig._validate_connector_args`
(config.py): checks a single `connector_args` entry, producing the `report`
string of the `ParamValidationError` the source raises (the spec's
`ConfigValidationError`) when the key is unrecognized or the value fails the
key's `isinstance` test. -/
def validateOne (k : String) (v : PyVal) : Except String Unit :=
  if k = "use_dns_cache" ∨ k = "verify_ssl" then
    if !(isInstBool v) then .error (k ++ " value must be a boolean") else .ok ()
  else if k = "keepalive_timeout" then
    if !(isInstFloat v) && !(isInstInt v) then
      .error (k ++ " value must be a float/int")
    else .ok ()
  else if k = "force_close" then
    if !(isInstBool v) then .error (k ++ " value must be a boolean") else .ok ()
  else if k = "limit" then
    if !(isInstInt v) then .error (k ++ " value must be an int") else .ok ()
  else if k = "ssl_context" then
    if !(isInstSSLContext v) then
      .error (k ++ " must be an SSLContext instance")
    else .ok ()
  else .error ("invalid connector_arg:" ++ k)

/-- The `for k, v in connector_args.items()` loop of
`_validate_connector_args`: the first offending entry raises. -/
def validateItems : PyDict → Except String Unit
  | [] => .ok ()
  | (k, v) :: rest =>
    match validateOne k v with
    | .error e => .error e
    | .ok () => validateItems rest

/-- `AsyncConfig._validate_connector_args` (config.py): `None` is accepted
without iteration. -/
def validateConnectorArgs : Option PyDict → Except String Unit
  | Option.none => .ok ()
  | some d => validateItems d

/-- Boolean form of "this entry passes `_validate_connector_args`". -/
def validatesOk (k : String) (v : PyVal) : Bool :=
  match validateOne k v with
  | .ok _ => true
  | .error _ => false

/-- Value-level semantics of `AsyncConfig.__init__`'s treatment of
`connector_args` (config.py): validate, shallow-copy (`copy.copy`), replace a
falsy result by a fresh `dict()`, then fill the keep-alive default `12` when
the key is absent.  Returns the contents of `self.connector_args`. -/
def initConnectorArgs (connector_args : Option PyDict) : Except String PyDict :=
  match validateConnectorArgs connector_args with
  | .error e => .error e
  | .ok _ =>
    let ca := connector_args.getD []
    let ca := if ca = [] then ([] : PyDict) else ca
    if (lookupKey ca "keepalive_timeout").isSome then .ok ca
    else .ok (insertKey ca "keepalive_timeout" (.int 12))

/-- `AsyncConfig` state: `userProvidedOptions` models botocore
`Config._user_provided_options` (the kwargs the caller explicitly passed,
recorded by the external `botocore.client.Config.__init__`), and
`connectorArgs` is `self.connector_args` after `__init__`. -/
structure AsyncConfig where
  userProvidedOptions : PyDict
  connectorArgs : PyDict
deriving DecidableEq, Repr

/-- `AsyncConfig(connector_args, **kwargs)` (config.py): the external
`botocore.client.Config.__init__` records the explicitly passed kwargs as
`_user_provided_options`; then `connector_args` is validated and normalized. -/
def mkAsyncConfig (connector_args : Option PyDict) (kwargs : PyDict) :
    Except String AsyncConfig :=
  match initConnectorArgs connector_args with
  | .error e => .error e
  | .ok ca => .ok ⟨kwargs, ca⟩

/-- `AsyncConfig.merge` (config.py): copy `self._user_provided_options`,
`update` with `other_config._user_provided_options`, and construct
`AsyncConfig(self.connector_args, **config_options)` — the second config's
connector options are never consulted. -/
def AsyncConfig.merge (self other : AsyncConfig) : Except String AsyncConfig :=
  let config_options := updateKeys self.userProvidedOptions other.userProvidedOptions
  mkAsyncConfig (some self.connectorArgs) config_options

/-! ### Heap model for object identity

`AsyncConfig.__init__` mutates a dict (`self.connector_args['keepalive_timeout'] = 12`).
Whether that write can be observed through the caller's mapping depends on
object identity (`copy.copy` versus aliasing), so the constructor is also
embedded against an explicit heap of dict objects addressed by references. -/

/-- A heap of Python dict objects; a reference is an index. -/
abbrev Heap := List PyDict

/-- Dereference: contents of the dict object at `r`. -/
def heapGet (h : Heap) (r : Nat) : PyDict := h.getD r []

/-- Overwrite the dict object at `r`. -/
def heapSet (h : Heap) (r : Nat) (d : PyDict) : Heap := h.set r d

/-- Allocate a fresh dict object, returning the new heap and its reference. -/
def heapAlloc (h : Heap) (d : PyDict) : Heap × Nat := (h ++ [d], h.length)

/-- Heap-level embedding of `AsyncConfig.__init__`'s `connector_args` handling
(config.py): validation (a pure read), `copy.copy` (allocates a NEW dict with
the same entries), the falsy-replacement by a fresh `dict()`, and the in-place
store of the keep-alive default into `self.connector_args`.  Returns the heap
after construction and, on success, the reference held by
`self.connector_args`. -/
def asyncConfigInitHeap (h : Heap) (args : Option Nat) :
    Heap × Except String Nat :=
  match validateConnectorArgs (args.map (heapGet h)) with
  | .error e => (h, .error e)
  | .ok _ =>
    let s1 : Heap × Option Nat :=
      match args with
      | Option.none => (h, Option.none)
      | some r =>
        let p := heapAlloc h (heapGet h r)
        (p.1, some p.2)
    let s2 : Heap × Nat :=
      match s1.2 with
      | Option.none => heapAlloc s1.1 []
      | some r => if heapGet s1.1 r = [] then heapAlloc s1.1 [] else (s1.1, r)
    if (lookupKey (heapGet s2.1 s2.2) "keepalive_timeout").isSome then
      (s2.1, .ok s2.2)
    else
      (heapSet s2.1 s2.2
        (insertKey (heapGet s2.1 s2.2) "keepalive_timeout" (.int 12)),
       .ok s2.2)

/-! ### Client factory: `AsyncClientCreator._get_client_args` (client.py) -/

/-- The slice of a botocore client `Config` consulted by
`_get_client_args`: the parameter-validation flag (default `True` in the
external `Config`) and the two user-agent fields (default `None`). -/
structure ClientConfig where
  parameter_validation : Bool
  user_agent : Option String
  user_agent_extra : Option String
deriving DecidableEq, Repr

/-- Python `str(v)` for the values a scoped config may hold (only its
lower-cased comparison against `"false"` is consumed; an `SSLContext` never
renders as `"false"` whatever its `repr`). -/
def pyStr : PyVal → String
  | .bool true => "True"
  | .bool false => "False"
  | .int n => toString n
  | .float q => toString q
  | .str s => s
  | .sslContext => "SSLContext"
  | .none => "None"

/-- Python `str.lower()` on one character (ASCII, which covers every string
the embedded code compares). -/
def pyLowerChar (c : Char) : Char :=
  if c.isUpper then Char.ofNat (c.toNat + 32) else c

/-- Python `str.lower()` (ASCII). -/
def pyLower (s : String) : String := ⟨s.data.map pyLowerChar⟩

/-- The `elif scoped_config:` arm of `_get_client_args` (client.py lines
34-37): with a truthy (non-empty) scoped config,
`str(scoped_config.get('parameter_validation', '')).lower() == 'false'`
disables parameter validation. -/
def scopedParameterValidation (scoped_config : Option PyDict) : Bool :=
  match scoped_config with
  | Option.none => true
  | some d =>
    if d = [] then true
    else if pyLower (pyStr ((lookupKey d "parameter_validation").getD (.str "")))
            = "false" then false
    else true

/-- Lines 31-37 of client.py: `parameter_validation = True`, disabled when the
explicit client config's flag is falsy (`if client_config and not
client_config.parameter_validation`), else the scoped-config arm applies. -/
def resolveParameterValidation (client_config : Option ClientConfig)
    (scoped_config : Option PyDict) : Bool :=
  match client_config with
  | some c =>
    if c.parameter_validation = false then false
    else scopedParameterValidation scoped_config
  | Option.none => scopedParameterValidation scoped_config

/-- Modelled from the spec (refinement reference for the precedence claim):
"Parameter validation defaults to enabled; an explicit config flag disables
it; absent that, a scoped configuration file value of the literal string
\"false\" (case-insensitive) disables it", with the three-tier precedence
explicit config > file config > built-in default. -/
def specParameterValidation (client_config : Option ClientConfig)
    (scoped_config : Option PyDict) : Bool :=
  if client_config.elim false (fun c => c.parameter_validation = false) then
    false
  else if (scoped_config.bind (fun d => lookupKey d "parameter_validation")).elim
            false (fun v =>
              match v with
              | .str s => pyLower s = "false"
              | _ => false) then
    false
  else true

/-- Lines 47-52 of client.py: the default user agent, overridden by
`client_config.user_agent` when set, then `+= ' %s' % user_agent_extra` when
that is set. -/
def computeUserAgent (defaultUserAgent : String)
    (client_config : Option ClientConfig) : String :=
  match client_config with
  | Option.none => defaultUserAgent
  | some c =>
    let ua : String :=
      match c.user_agent with
      | some s => s
      | Option.none => defaultUserAgent
    match c.user_agent_extra with
    | some extra => ua ++ " " ++ extra
    | Option.none => ua

/-! ### Execution engine: `AsyncBaseClient._make_api_call` (client.py) -/

/-- Observable steps of one `_make_api_call`: a hook emission on the event
emitter (with the formatted event name) or the awaited
`self._endpoint.make_request` dispatch. -/
inductive Ev where
  | emit (eventName : String)
  | dispatchCall
deriving DecidableEq, Repr

/-- Outcome of one `_make_api_call`: the parsed body is returned, or
`ClientError(parsed_response, operation_name)` (the spec's `ServiceError`) is
raised, or a `ParamValidationError` from serialization, or a transport-level
fault from dispatch propagates unchanged. -/
inductive ApiOutcome where
  | ok (parsed : PyVal)
  | clientError (parsed : PyVal) (operationName : String)
  | paramValidationError (report : String)
  | transportFault (fault : String)
deriving DecidableEq, Repr

/-- External collaborators of `_make_api_call`: the service model's endpoint
prefix, `_convert_to_request_dict` (serialization, which may raise
`ParamValidationError`), and the endpoint's `make_request` (suspend-capable
dispatch yielding `(http, parsed_response)` with `http.status_code`, or
raising a transport-level fault). -/
structure ApiEnv where
  endpointPrefix : String
  serialize : PyDict → Except String PyDict
  dispatch : PyDict → Except String (Int × PyVal)

/-- `AsyncBaseClient._make_api_call` (client.py lines 120-152), returning the
trace of hook emissions / dispatch alongside the outcome: serialize; emit
`before-call.{endpoint_prefix}.{operation_name}`; await
`self._endpoint.make_request` (a raised transport fault propagates with no
after-hook); emit `after-call.{endpoint_prefix}.{operation_name}` regardless
of status code; then raise `ClientError` when `http.status_code >= 300`, else
return the parsed response. -/
def makeApiCall (env : ApiEnv) (operation_name : String) (api_params : PyDict) :
    List Ev × ApiOutcome :=
  match env.serialize api_params with
  | .error report => ([], .paramValidationError report)
  | .ok request_dict =>
    let beforeTrace : List Ev :=
      [Ev.emit ("before-call." ++ env.endpointPrefix ++ "." ++ operation_name)]
    match env.dispatch request_dict with
    | .error fault => (beforeTrace ++ [Ev.dispatchCall], .transportFault fault)
    | .ok (status_code, parsed_response) =>
      let trace := beforeTrace ++ [Ev.dispatchCall] ++
        [Ev.emit ("after-call." ++ env.endpointPrefix ++ "." ++ operation_name)]
      if status_code ≥ 300 then
        (trace, .clientError parsed_response operation_name)
      else
        (trace, .ok parsed_response)

/-! ### Pagination: `AsyncBaseClient.get_paginator` (client.py) -/

/-- Failures of `get_paginator`: `OperationNotPageableError(operation_name)`
or a Python `KeyError` from an unknown method name in `_PY_TO_OP_NAME`. -/
inductive PaginatorError where
  | operationNotPageable (operationName : String)
  | keyError (key : String)
deriving DecidableEq, Repr

/-- The `Paginator(getattr(self, operation_name), page_config)` result: the
bound method's name and the operation's pagination metadata (opaque here). -/
structure Paginator where
  method : String
  pageConfig : PyVal
deriving DecidableEq, Repr

/-- The per-client state `get_paginator` consults: `_PY_TO_OP_NAME` (generated
method name to operation name) and `self._cache['page_config']` (pagination
metadata per operation, from the service description). -/
structure PageClientState where
  pyToOpName : List (String × String)
  pageConfig : List (String × PyVal)

/-- The external `botocore.client.BaseClient.can_paginate`:
`actual_operation_name = self._PY_TO_OP_NAME[operation_name]` (a `KeyError`
for an unknown method name), then membership of the actual name in the loaded
`page_config`. -/
def canPaginate (c : PageClientState) (operation_name : String) :
    Except String Bool :=
  match lookupKey c.pyToOpName operation_name with
  | Option.none => .error operation_name
  | some actual => .ok ((lookupKey c.pageConfig actual).isSome)

/-- `AsyncBaseClient.get_paginator` (client.py lines 154-178): raise
`OperationNotPageableError(operation_name=operation_name)` when
`can_paginate` is false, else build the `Paginator` from the bound method and
`self._cache['page_config'][actual_operation_name]`.  (The process-wide
`Paginator.PAGE_ITERATOR_CLS` substitution is not observable in this state.) -/
def get_paginator (c : PageClientState) (operation_name : String) :
    Except PaginatorError Paginator :=
  match canPaginate c operation_name with
  | .error k => .error (.keyError k)
  | .ok false => .error (.operationNotPageable operation_name)
  | .ok true =>
    match lookupKey c.pyToOpName operation_name with
    | Option.none => .error (.keyError operation_name)
    | some actual =>
      match lookupKey c.pageConfig actual with
      | Option.none => .error (.keyError actual)
      | some pc => .ok ⟨operation_name, pc⟩

/-! ### Helper lemmas -/

theorem lookupKey_insertKey_self {α : Type} (d : List (String × α)) (k : String)
    (v : α) : lookupKey (insertKey d k v) k = some v := by
  induction d with
  | nil => simp [insertKey, lookupKey]
  | cons hd tl ih =>
    obtain ⟨k', v'⟩ := hd
    by_cases hk : k' = k
    · simp [insertKey, hk, lookupKey]
    · simp [insertKey, hk, lookupKey, ih]

theorem lookupKey_insertKey_ne {α : Type} (d : List (String × α))
    (k k' : String) (v : α) (hne : k' ≠ k) :
    lookupKey (insertKey d k v) k' = lookupKey d k' := by
  have hne' : ¬k = k' := fun h => hne h.symm
  induction d with
  | nil => simp [insertKey, lookupKey, hne']
  | cons hd tl ih =>
    obtain ⟨k0, v0⟩ := hd
    by_cases hk : k0 = k
    · subst hk
      simp [insertKey, lookupKey, hne']
    · by_cases hk' : k0 = k'
      · simp [insertKey, hk, lookupKey, hk', hne]
      · simp [insertKey, hk, lookupKey, hk', ih]

theorem mem_insertKey {α : Type} {d : List (String × α)} {k : String} {v : α}
    {kv : String × α} (h : kv ∈ insertKey d k v) : kv ∈ d ∨ kv = (k, v) := by
  induction d with
  | nil => simpa [insertKey] using h
  | cons hd tl ih =>
    obtain ⟨k0, v0⟩ := hd
    by_cases hk : k0 = k
    · simp only [insertKey, hk, if_pos rfl] at h
      rcases List.mem_cons.mp h with h1 | h1
      · exact Or.inr (by simp [h1, hk])
      · exact Or.inl (List.mem_cons_of_mem _ h1)
    · simp only [insertKey, hk, if_neg hk] at h
      rcases List.mem_cons.mp h with h1 | h1
      · exact Or.inl (by simp [h1])
      · rcases ih h1 with h2 | h2
        · exact Or.inl (List.mem_cons_of_mem _ h2)
        · exact Or.inr h2

theorem insertKey_ne_nil {α : Type} (d : List (String × α)) (k : String)
    (v : α) : insertKey d k v ≠ [] := by
  cases d with
  | nil => simp [insertKey]
  | cons hd tl =>
    obtain ⟨k0, v0⟩ := hd
    by_cases hk : k0 = k <;> simp [insertKey, hk]

theorem lookupKey_eq_none_of_not_mem_keys {α : Type} {d : List (String × α)}
    {k : String} (h : k ∉ d.map Prod.fst) : lookupKey d k = Option.none := by
  induction d with
  | nil => rfl
  | cons hd tl ih =>
    obtain ⟨k0, v0⟩ := hd
    simp only [List.map_cons, List.mem_cons] at h
    push_neg at h
    have h1 : ¬k0 = k := fun hEq => h.1 hEq.symm
    simp [lookupKey, h1, ih h.2]

theorem lookupKey_updateKeys {α : Type} (d other : List (String × α))
    (hnd : (other.map Prod.fst).Nodup) (k : String) :
    lookupKey (updateKeys d other) k =
      (lookupKey other k).elim (lookupKey d k) some := by
  induction other generalizing d with
  | nil => simp [updateKeys, lookupKey, Option.elim]
  | cons hd tl ih =>
    obtain ⟨k0, v0⟩ := hd
    simp only [List.map_cons, List.nodup_cons] at hnd
    have step : updateKeys d ((k0, v0) :: tl) = updateKeys (insertKey d k0 v0) tl := rfl
    rw [step, ih _ hnd.2]
    by_cases hk : k0 = k
    · subst hk
      rw [lookupKey_eq_none_of_not_mem_keys hnd.1]
      simp [lookupKey, Option.elim, lookupKey_insertKey_self]
    · simp [lookupKey, hk, Option.elim, lookupKey_insertKey_ne d k0 k v0 (fun h => hk h.symm)]

theorem validateItems_ok_iff (d : PyDict) :
    validateItems d = .ok () ↔ ∀ kv ∈ d, validatesOk kv.1 kv.2 = true := by
  induction d with
  | nil => simp [validateItems]
  | cons hd tl ih =>
    obtain ⟨k, v⟩ := hd
    constructor
    · intro h kv hm
      rcases List.mem_cons.mp hm with h1 | h1
      · subst h1
        simp only [validateItems] at h
        cases hv : validateOne k v with
        | error e => rw [hv] at h; cases h
        | ok u => simp [validatesOk, hv]
      · apply (ih.mp _) kv h1
        simp only [validateItems] at h
        cases hv : validateOne k v with
        | error e => rw [hv] at h; cases h
        | ok u => rw [hv] at h; exact h
    · intro h
      have hk : validatesOk k v = true := h (k, v) (List.mem_cons_self _ _)
      simp only [validatesOk] at hk
      cases hv : validateOne k v with
      | error e => rw [hv] at hk; cases hk
      | ok u =>
        simp only [validateItems, hv]
        exact ih.mpr fun kv hm => h kv (List.mem_cons_of_mem _ hm)

theorem heapGet_append_lt (h : Heap) (d : PyDict) (r : Nat)
    (hr : r < h.length) : heapGet (h ++ [d]) r = heapGet h r := by
  induction h generalizing r with
  | nil => simp at hr
  | cons a t ih =>
    cases r with
    | zero => rfl
    | succ n =>
      simp only [List.length_cons, Nat.succ_lt_succ_iff] at hr
      simpa [heapGet, List.getD_cons_succ] using ih n hr

theorem heapGet_append_self (h : Heap) (d : PyDict) :
    heapGet (h ++ [d]) h.length = d := by
  induction h with
  | nil => rfl
  | cons a t ih => simp [heapGet, List.getD_cons_succ, ih]

theorem heapGet_set_ne (h : Heap) (r r' : Nat) (d : PyDict) (hne : r ≠ r') :
    heapGet (heapSet h r' d) r = heapGet h r := by
  induction h generalizing r r' with
  | nil => simp [heapSet, heapGet]
  | cons a t ih =>
    cases r' with
    | zero =>
      cases r with
      | zero => exact absurd rfl hne
      | succ n => simp [heapSet, heapGet, List.set]
    | succ m =>
      cases r with
      | zero => simp [heapSet, heapGet, List.set]
      | succ n =>
        have hne' : n ≠ m := fun hEq => hne (by simp [hEq])
        simpa [heapSet, heapGet, List.set, List.getD_cons_succ] using ih n m hne'

theorem validateOne_error_shape {k : String} {v : PyVal} {m : String}
    (h : validateOne k v = .error m) :
    m = k ++ " value must be a boolean" ∨ m = k ++ " value must be a float/int" ∨
    m = k ++ " value must be an int" ∨ m = k ++ " must be an SSLContext instance" ∨
    m = "invalid connector_arg:" ++ k := by
  unfold validateOne at h
  split_ifs at h <;> simp_all

theorem validateItems_first_error (d : PyDict)
    (hbad : ∃ kv ∈ d, validatesOk kv.1 kv.2 = false) :
    ∃ k v msg, (k, v) ∈ d ∧ validatesOk k v = false ∧
      validateItems d = .error msg ∧ validateOne k v = .error msg := by
  induction d with
  | nil => obtain ⟨kv, hm, _⟩ := hbad; cases hm
  | cons hd0 tl ih =>
    obtain ⟨k0, v0⟩ := hd0
    cases hv : validateOne k0 v0 with
    | error m =>
      exact ⟨k0, v0, m, List.mem_cons_self _ _, by simp [validatesOk, hv],
        by simp [validateItems, hv], hv⟩
    | ok u =>
      have hbad' : ∃ kv ∈ tl, validatesOk kv.1 kv.2 = false := by
        obtain ⟨kv, hm, hb⟩ := hbad
        rcases List.mem_cons.mp hm with h1 | h1
        · exfalso; rw [h1] at hb; simp [validatesOk, hv] at hb
        · exact ⟨kv, h1, hb⟩
      obtain ⟨k, v, msg, hm, hb, hit, hvo⟩ := ih hbad'
      exact ⟨k, v, msg, List.mem_cons_of_mem _ hm, hb,
        by simp [validateItems, hv, hit], hvo⟩

/-! ### Claim theorems -/

/-- C1: for every API call whose dispatch completes with an HTTP response,
a status code `>= 300` makes the call fail with `ClientError` (the spec's
`ServiceError`) carrying the parsed error body and the operation name;
otherwise the call returns the parsed body. -/
theorem makeApiCall_classifies_status (env : ApiEnv) (operation_name : String)
    (api_params request_dict : PyDict) (status_code : Int) (parsed : PyVal)
    (hs : env.serialize api_params = .ok request_dict)
    (hd : env.dispatch request_dict = .ok (status_code, parsed)) :
    (makeApiCall env operation_name api_params).2 =
      if status_code ≥ 300 then ApiOutcome.clientError parsed operation_name
      else ApiOutcome.ok parsed := by
  simp only [makeApiCall, hs, hd]
  split <;> rfl

/-- Witness for C1 at a concrete environment: a 200 response returns the
parsed body. -/
theorem makeApiCall_classifies_status_witness :
    (makeApiCall ⟨"s3", fun _ => Except.ok [], fun _ => Except.ok (200, PyVal.none)⟩
      "ListBuckets" []).2 = ApiOutcome.ok PyVal.none := by
  have h := makeApiCall_classifies_status
    ⟨"s3", fun _ => Except.ok [], fun _ => Except.ok (200, PyVal.none)⟩
    "ListBuckets" [] [] 200 PyVal.none rfl rfl
  simpa using h

/-- C2: the before-call hook is emitted exactly once, strictly before
dispatch, and the after-call hook exactly once, strictly after dispatch (the
trace equals the three-step list, even for error status codes, whose
classification happens after the after-hook); when dispatch raises a
transport-level fault the trace stops after dispatch (no after-hook) and the
fault propagates unchanged. -/
theorem makeApiCall_hook_ordering (env : ApiEnv) (operation_name : String)
    (api_params request_dict : PyDict)
    (hs : env.serialize api_params = .ok request_dict) :
    (∀ status_code parsed, env.dispatch request_dict = .ok (status_code, parsed) →
      (makeApiCall env operation_name api_params).1 =
        [Ev.emit ("before-call." ++ env.endpointPrefix ++ "." ++ operation_name),
         Ev.dispatchCall,
         Ev.emit ("after-call." ++ env.endpointPrefix ++ "." ++ operation_name)]) ∧
    (∀ fault, env.dispatch request_dict = .error fault →
      (makeApiCall env operation_name api_params).1 =
        [Ev.emit ("before-call." ++ env.endpointPrefix ++ "." ++ operation_name),
         Ev.dispatchCall] ∧
      (makeApiCall env operation_name api_params).2 = ApiOutcome.transportFault fault) := by
  constructor
  · intro status_code parsed hd
    simp only [makeApiCall, hs, hd]
    split <;> rfl
  · intro fault hd
    simp [makeApiCall, hs, hd]

/-- Witness for C2 at a concrete environment: a transport fault leaves the
before-hook and dispatch in the trace, no after-hook, and propagates. -/
theorem makeApiCall_hook_ordering_witness :
    (makeApiCall ⟨"s3", fun _ => Except.ok [], fun _ => Except.error "boom"⟩
      "ListBuckets" []).1 =
        [Ev.emit "before-call.s3.ListBuckets", Ev.dispatchCall] ∧
    (makeApiCall ⟨"s3", fun _ => Except.ok [], fun _ => Except.error "boom"⟩
      "ListBuckets" []).2 = ApiOutcome.transportFault "boom" := by
  have h := makeApiCall_hook_ordering
    ⟨"s3", fun _ => Except.ok [], fun _ => Except.error "boom"⟩
    "ListBuckets" [] [] rfl
  simpa using h.2 "boom" rfl

/-- C7: for a generated method name of the client, `get_paginator` fails with
`OperationNotPageableError` naming the operation exactly when the operation
lacks pagination metadata, and returns a paginator without raising when
metadata exists. -/
theorem get_paginator_pageability (c : PageClientState)
    (operation_name actual : String)
    (h : lookupKey c.pyToOpName operation_name = some actual) :
    (lookupKey c.pageConfig actual = Option.none →
      get_paginator c operation_name =
        .error (.operationNotPageable operation_name)) ∧
    (∀ pc, lookupKey c.pageConfig actual = some pc →
      get_paginator c operation_name = .ok ⟨operation_name, pc⟩) := by
  constructor
  · intro hp
    simp [get_paginator, canPaginate, h, hp]
  · intro pc hp
    simp [get_paginator, canPaginate, h, hp]

/-- Witness for C7 at a concrete client: an operation with no pagination
metadata raises `OperationNotPageableError`, a pageable one returns a
paginator. -/
theorem get_paginator_pageability_witness :
    get_paginator ⟨[("list_buckets", "ListBuckets")], []⟩ "list_buckets" =
      Except.error (PaginatorError.operationNotPageable "list_buckets") ∧
    get_paginator ⟨[("list_objects", "ListObjects")],
        [("ListObjects", PyVal.str "pagcfg")]⟩ "list_objects" =
      Except.ok ⟨"list_objects", PyVal.str "pagcfg"⟩ := by
  constructor
  · exact (get_paginator_pageability ⟨[("list_buckets", "ListBuckets")], []⟩
      "list_buckets" "ListBuckets" rfl).1 rfl
  · exact (get_paginator_pageability ⟨[("list_objects", "ListObjects")],
      [("ListObjects", PyVal.str "pagcfg")]⟩
      "list_objects" "ListObjects" rfl).2 (PyVal.str "pagcfg") rfl

/-- C8: the effective user agent is the built-in default, replaced by the
explicit config's `user_agent` when set, with `user_agent_extra` appended
after a single space when set, whether or not the base was replaced. -/
theorem computeUserAgent_policy (d s e : String) (pv : Bool) :
    computeUserAgent d Option.none = d ∧
    computeUserAgent d (some ⟨pv, Option.none, Option.none⟩) = d ∧
    computeUserAgent d (some ⟨pv, some s, Option.none⟩) = s ∧
    computeUserAgent d (some ⟨pv, Option.none, some e⟩) = d ++ " " ++ e ∧
    computeUserAgent d (some ⟨pv, some s, some e⟩) = s ++ " " ++ e :=
  ⟨rfl, rfl, rfl, rfl, rfl⟩

/-- C5: the computed parameter-validation flag realizes the spec's three-tier
precedence (explicit config > scoped file config > built-in default) for
every combination of explicit config and scoped config, provided the scoped
config's `parameter_validation` value, when present, is a string (as values
of a parsed configuration file are; for non-string values the code's `str()`
coercion also treats e.g. the Python bool `False` as `"false"`). -/
theorem resolveParameterValidation_precedence (client_config : Option ClientConfig)
    (scoped_config : Option PyDict)
    (hstr : (scoped_config.bind fun d =>
        lookupKey d "parameter_validation").all isInstStr = true) :
    resolveParameterValidation client_config scoped_config =
      specParameterValidation client_config scoped_config := by
  have hsc : scopedParameterValidation scoped_config =
      (if (scoped_config.bind fun d => lookupKey d "parameter_validation").elim
          false (fun v =>
            match v with
            | PyVal.str s => pyLower s = "false"
            | _ => false) then false else true) := by
    cases scoped_config with
    | none => rfl
    | some d =>
      by_cases hd : d = []
      · subst hd; decide
      · cases hl : lookupKey d "parameter_validation" with
        | none => simp [scopedParameterValidation, hd, hl, pyStr]; decide
        | some v =>
          simp only [Option.bind_eq_bind, Option.some_bind, hl, Option.all_some] at hstr
          cases v with
          | str s => simp [scopedParameterValidation, hd, hl, pyStr]
          | bool b => simp [isInstStr] at hstr
          | int n => simp [isInstStr] at hstr
          | float q => simp [isInstStr] at hstr
          | sslContext => simp [isInstStr] at hstr
          | none => simp [isInstStr] at hstr
  cases client_config with
  | none =>
    simp [resolveParameterValidation, specParameterValidation, hsc, Option.elim]
  | some c =>
    by_cases hpv : c.parameter_validation = false
    · simp [resolveParameterValidation, specParameterValidation, hpv, Option.elim]
    · simp [resolveParameterValidation, specParameterValidation, hpv, hsc, Option.elim]

/-- Witness for C5 at a concrete combination: an explicit config with the
flag enabled together with a scoped `parameter_validation = "FALSE"` entry. -/
theorem resolveParameterValidation_precedence_witness :
    resolveParameterValidation (some ⟨true, Option.none, Option.none⟩)
        (some [("parameter_validation", PyVal.str "FALSE")]) =
      specParameterValidation (some ⟨true, Option.none, Option.none⟩)
        (some [("parameter_validation", PyVal.str "FALSE")]) :=
  resolveParameterValidation_precedence _ _ (by decide)

/-- C3: a connector-options mapping containing an offending entry — a key
outside the recognized set, or a recognized key whose value fails its
`isinstance` test — makes config construction fail with a validation error
(botocore's `ParamValidationError`, the spec's `ConfigValidationError`) whose
report names the offending key; and every unrecognized key is offending, so
none is silently accepted. -/
theorem mkAsyncConfig_rejects_bad_connector_args (d kwargs : PyDict)
    (hbad : ∃ kv ∈ d, validatesOk kv.1 kv.2 = false) :
    (∃ k v msg, (k, v) ∈ d ∧ validatesOk k v = false ∧
      mkAsyncConfig (some d) kwargs = .error msg ∧
      validateOne k v = .error msg ∧
      (msg = k ++ " value must be a boolean" ∨
       msg = k ++ " value must be a float/int" ∨
       msg = k ++ " value must be an int" ∨
       msg = k ++ " must be an SSLContext instance" ∨
       msg = "invalid connector_arg:" ++ k)) ∧
    (∀ k v, k ∉ (["use_dns_cache", "verify_ssl", "force_close",
        "keepalive_timeout", "limit", "ssl_context"] : List String) →
      validatesOk k v = false) := by
  constructor
  · obtain ⟨k, v, msg, hm, hb, hit, hvo⟩ := validateItems_first_error d hbad
    exact ⟨k, v, msg, hm, hb,
      by simp [mkAsyncConfig, initConnectorArgs, validateConnectorArgs, hit],
      hvo, validateOne_error_shape hvo⟩
  · intro k v hk
    simp only [List.mem_cons, List.not_mem_nil, or_false] at hk
    push_neg at hk
    obtain ⟨h1, h2, h3, h4, h5, h6⟩ := hk
    simp [validatesOk, validateOne, h1, h2, h3, h4, h5, h6]

/-- Witness for C3 at the concrete mapping with the single unrecognized key
`bogus`. -/
theorem mkAsyncConfig_rejects_bad_connector_args_witness :
    (∃ k v msg, (k, v) ∈ ([("bogus", PyVal.int 1)] : PyDict) ∧
      validatesOk k v = false ∧
      mkAsyncConfig (some [("bogus", PyVal.int 1)]) [] = .error msg ∧
      validateOne k v = .error msg ∧
      (msg = k ++ " value must be a boolean" ∨
       msg = k ++ " value must be a float/int" ∨
       msg = k ++ " value must be an int" ∨
       msg = k ++ " must be an SSLContext instance" ∨
       msg = "invalid connector_arg:" ++ k)) ∧
    (∀ k v, k ∉ (["use_dns_cache", "verify_ssl", "force_close",
        "keepalive_timeout", "limit", "ssl_context"] : List String) →
      validatesOk k v = false) :=
  mkAsyncConfig_rejects_bad_connector_args [("bogus", PyVal.int 1)] [] (by decide)

/-- C6: a connector-options mapping with only recognized keys and
correctly-typed values constructs successfully; the result binds
`keepalive_timeout` to the input's value when present and to the default `12`
when absent, and carries every other key unchanged. -/
theorem initConnectorArgs_fills_keepalive (d : PyDict)
    (hgood : ∀ kv ∈ d, validatesOk kv.1 kv.2 = true) :
    ∃ ca, initConnectorArgs (some d) = .ok ca ∧
      lookupKey ca "keepalive_timeout" =
        some ((lookupKey d "keepalive_timeout").getD (.int 12)) ∧
      ∀ k, k ≠ "keepalive_timeout" → lookupKey ca k = lookupKey d k := by
  have hval : validateItems d = .ok () := (validateItems_ok_iff d).mpr hgood
  by_cases hd : d = []
  · subst hd
    refine ⟨[("keepalive_timeout", .int 12)], rfl, rfl, ?_⟩
    intro k hk
    have hk' : ¬("keepalive_timeout" = k) := fun h => hk h.symm
    simp [lookupKey, hk']
  · have hca : initConnectorArgs (some d) =
        (if (lookupKey d "keepalive_timeout").isSome then Except.ok d
         else Except.ok (insertKey d "keepalive_timeout" (.int 12))) := by
      by_cases hl : (lookupKey d "keepalive_timeout").isSome <;>
        simp [initConnectorArgs, validateConnectorArgs, hval, hd, hl]
    cases hl : lookupKey d "keepalive_timeout" with
    | some v =>
      refine ⟨d, ?_, by simp [hl], fun k hk => rfl⟩
      rw [hca, hl]; simp
    | none =>
      refine ⟨insertKey d "keepalive_timeout" (.int 12), ?_, ?_, ?_⟩
      · rw [hca, hl]; simp
      · simp [hl, lookupKey_insertKey_self]
      · intro k hk
        exact lookupKey_insertKey_ne d _ k _ hk

/-- Witness for C6 at the concrete mapping `[limit = 5]`, which lacks
`keepalive_timeout`. -/
theorem initConnectorArgs_fills_keepalive_witness :
    ∃ ca, initConnectorArgs (some [("limit", PyVal.int 5)]) = .ok ca ∧
      lookupKey ca "keepalive_timeout" =
        some ((lookupKey [("limit", PyVal.int 5)] "keepalive_timeout").getD (.int 12)) ∧
      ∀ k, k ≠ "keepalive_timeout" →
        lookupKey ca k = lookupKey [("limit", PyVal.int 5)] k :=
  initConnectorArgs_fills_keepalive [("limit", PyVal.int 5)] (by decide)

/-- C10: binding the integer-typed options `limit` and `keepalive_timeout` to
boolean values does not fail the type check — `isinstance(v, int)` accepts a
Python `bool` — so construction succeeds on any otherwise-valid mapping. -/
theorem mkAsyncConfig_accepts_bool_for_int (d kwargs : PyDict) (b1 b2 : Bool)
    (hgood : validateItems d = .ok ()) :
    validatesOk "limit" (.bool b1) = true ∧
    validatesOk "keepalive_timeout" (.bool b2) = true ∧
    ∃ cfg, mkAsyncConfig
        (some (insertKey (insertKey d "limit" (.bool b1))
          "keepalive_timeout" (.bool b2))) kwargs = .ok cfg := by
  refine ⟨by cases b1 <;> decide, by cases b2 <;> decide, ?_⟩
  set d2 := insertKey (insertKey d "limit" (.bool b1))
    "keepalive_timeout" (.bool b2) with hd2
  have hall : ∀ kv ∈ d2, validatesOk kv.1 kv.2 = true := by
    intro kv hm
    rw [hd2] at hm
    rcases mem_insertKey hm with h1 | h1
    · rcases mem_insertKey h1 with h2 | h2
      · exact (validateItems_ok_iff d).mp hgood kv h2
      · rw [h2]; cases b1 <;> decide
    · rw [h1]; cases b2 <;> decide
  have hval : validateItems d2 = .ok () := (validateItems_ok_iff d2).mpr hall
  have hne : d2 ≠ [] := by rw [hd2]; exact insertKey_ne_nil _ _ _
  have hka : (lookupKey d2 "keepalive_timeout").isSome = true := by
    rw [hd2, lookupKey_insertKey_self]; rfl
  exact ⟨⟨kwargs, d2⟩,
    by simp [mkAsyncConfig, initConnectorArgs, validateConnectorArgs, hval, hne, hka]⟩

/-- Witness for C10 at a concrete mapping. -/
theorem mkAsyncConfig_accepts_bool_for_int_witness :
    validatesOk "limit" (.bool true) = true ∧
    validatesOk "keepalive_timeout" (.bool false) = true ∧
    ∃ cfg, mkAsyncConfig
        (some (insertKey (insertKey [("use_dns_cache", PyVal.bool true)]
          "limit" (.bool true)) "keepalive_timeout" (.bool false))) [] = .ok cfg :=
  mkAsyncConfig_accepts_bool_for_int [("use_dns_cache", PyVal.bool true)] []
    true false rfl

/-- C4 counterexample: the claim says B's explicitly-set connector options
replace A's in `merge A B`, but `AsyncConfig.merge` passes only
`self.connector_args` to the new config and never consults
`other_config.connector_args`.  Here A binds `limit` to 1 and B explicitly
binds `limit` to 2, yet the merged config's `limit` is A's 1. -/
theorem merge_ignores_second_connector_args :
    AsyncConfig.merge
        ⟨[("region_name", PyVal.str "us-east-1")],
         [("limit", PyVal.int 1), ("keepalive_timeout", PyVal.int 12)]⟩
        ⟨[], [("limit", PyVal.int 2), ("keepalive_timeout", PyVal.int 12)]⟩ =
      .ok ⟨[("region_name", PyVal.str "us-east-1")],
           [("limit", PyVal.int 1), ("keepalive_timeout", PyVal.int 12)]⟩ ∧
    lookupKey ([("limit", PyVal.int 2), ("keepalive_timeout", PyVal.int 12)] : PyDict)
        "limit" = some (PyVal.int 2) ∧
    (some (PyVal.int 1) : Option PyVal) ≠ some (PyVal.int 2) :=
  ⟨rfl, rfl, by decide⟩

/-- C4 as amended: merging A with B yields a config whose explicitly-set
fields equal B's wherever B set them and A's otherwise, and whose connector
options are always carried from A (normalized with the keep-alive default);
B's connector options are ignored. -/
theorem merge_overrides_options (a b : AsyncConfig)
    (hv : validateConnectorArgs (some a.connectorArgs) = .ok ())
    (hnd : (b.userProvidedOptions.map Prod.fst).Nodup) :
    ∃ c, AsyncConfig.merge a b = .ok c ∧
      (∀ k, lookupKey c.userProvidedOptions k =
        (lookupKey b.userProvidedOptions k).elim
          (lookupKey a.userProvidedOptions k) some) ∧
      c.connectorArgs =
        (if (lookupKey a.connectorArgs "keepalive_timeout").isSome then
          a.connectorArgs
         else insertKey a.connectorArgs "keepalive_timeout" (.int 12)) := by
  have hca : initConnectorArgs (some a.connectorArgs) =
      .ok (if (lookupKey a.connectorArgs "keepalive_timeout").isSome then
            a.connectorArgs
           else insertKey a.connectorArgs "keepalive_timeout" (.int 12)) := by
    by_cases hd : a.connectorArgs = []
    · rw [hd] at hv ⊢
      simp [initConnectorArgs, validateConnectorArgs, validateItems, lookupKey,
        insertKey]
    · by_cases hl : (lookupKey a.connectorArgs "keepalive_timeout").isSome <;>
        simp [initConnectorArgs, hv, hd, hl]
  refine ⟨⟨updateKeys a.userProvidedOptions b.userProvidedOptions,
    (if (lookupKey a.connectorArgs "keepalive_timeout").isSome then
      a.connectorArgs
     else insertKey a.connectorArgs "keepalive_timeout" (.int 12))⟩, ?_, ?_, rfl⟩
  · simp [AsyncConfig.merge, mkAsyncConfig, hca]
  · intro k
    exact lookupKey_updateKeys _ _ hnd k

/-- Witness for the amended C4 at concrete configs: B's `region_name`
overrides A's, A's `connect_timeout` survives, and the connector options are
A's. -/
theorem merge_overrides_options_witness :
    ∃ c, AsyncConfig.merge
        ⟨[("region_name", PyVal.str "us-east-1"),
          ("connect_timeout", PyVal.int 60)],
         [("limit", PyVal.int 1), ("keepalive_timeout", PyVal.int 12)]⟩
        ⟨[("region_name", PyVal.str "eu-west-1")],
         [("limit", PyVal.int 2), ("keepalive_timeout", PyVal.int 12)]⟩ = .ok c ∧
      (∀ k, lookupKey c.userProvidedOptions k =
        (lookupKey ([("region_name", PyVal.str "eu-west-1")] : PyDict) k).elim
          (lookupKey ([("region_name", PyVal.str "us-east-1"),
            ("connect_timeout", PyVal.int 60)] : PyDict) k) some) ∧
      c.connectorArgs =
        (if (lookupKey ([("limit", PyVal.int 1),
            ("keepalive_timeout", PyVal.int 12)] : PyDict)
            "keepalive_timeout").isSome then
          [("limit", PyVal.int 1), ("keepalive_timeout", PyVal.int 12)]
         else insertKey [("limit", PyVal.int 1),
            ("keepalive_timeout", PyVal.int 12)]
            "keepalive_timeout" (.int 12)) :=
  merge_overrides_options
    ⟨[("region_name", PyVal.str "us-east-1"), ("connect_timeout", PyVal.int 60)],
     [("limit", PyVal.int 1), ("keepalive_timeout", PyVal.int 12)]⟩
    ⟨[("region_name", PyVal.str "eu-west-1")],
     [("limit", PyVal.int 2), ("keepalive_timeout", PyVal.int 12)]⟩
    rfl (by decide)

/-- C9: constructing an `AsyncConfig` never mutates the caller-supplied
connector-options dict: the keep-alive default is written only into the
`copy.copy` copy (or a fresh dict), so the caller's dict object is unchanged
in the heap after construction, whether construction succeeds or raises. -/
theorem asyncConfigInitHeap_preserves_caller (h : Heap) (r : Nat)
    (hr : r < h.length) :
    heapGet (asyncConfigInitHeap h (some r)).1 r = heapGet h r := by
  unfold asyncConfigInitHeap
  cases hv : validateConnectorArgs ((some r).map (heapGet h)) with
  | error e => rfl
  | ok u =>
    simp only [heapAlloc, heapGet_append_self]
    by_cases hnil : heapGet h r = []
    · rw [if_pos hnil]
      dsimp only
      have hne2 : r ≠ (h ++ [heapGet h r]).length := by
        rw [List.length_append]; omega
      have hlen2 : r < (h ++ [heapGet h r]).length := by
        rw [List.length_append]; omega
      rw [heapGet_append_self (h ++ [heapGet h r]) []]
      simp only [lookupKey, Option.isSome_none, Bool.false_eq_true, if_false]
      rw [heapGet_set_ne _ _ _ _ hne2, heapGet_append_lt _ _ _ hlen2,
        heapGet_append_lt _ _ _ hr]
    · rw [if_neg hnil]
      dsimp only
      rw [heapGet_append_self h (heapGet h r)]
      by_cases hl : (lookupKey (heapGet h r) "keepalive_timeout").isSome = true
      · rw [if_pos hl]
        exact heapGet_append_lt _ _ _ hr
      · rw [if_neg hl]
        exact (heapGet_set_ne _ _ _ _ (Nat.ne_of_lt hr)).trans
          (heapGet_append_lt _ _ _ hr)

/-- Witness for C9 at a concrete heap: the caller's dict at reference 0 is
unchanged by construction. -/
theorem asyncConfigInitHeap_preserves_caller_witness :
    heapGet (asyncConfigInitHeap [[("limit", PyVal.int 1)]] (some 0)).1 0 =
      [("limit", PyVal.int 1)] := by
  have h := asyncConfigInitHeap_preserves_caller [[("limit", PyVal.int 1)]] 0
    (by decide)
  simpa using h

end AsyncBotocore
